import Mathlib

/-!
Verification of the 8080 architectural-state core (cpu.py).

Shallow embedding of the two state containers in `cpu.py`:

* `Flags`    — the condition-flag register (an unbounded Python int that in
  fact stays a non-negative bit word, modeled as `Nat`);
* `Registers` — the scalar register file (a Python dict from integer register
  codes to unbounded integer values, modeled as a key list plus a total
  valuation `Int → Int`), the register-pair views over it and the
  opcode-field helpers.

Python integer primitives used by the source are modeled exactly:
`v >> n` (arithmetic shift) is `Int.fdiv v (2^n)`, `v << n` is `v * 2^n`,
`v & (2^k - 1)` is `Int.emod v (2^k)` (two's-complement on unbounded ints),
and `a | b` is Mathlib's `Int.lor`.
-/

namespace Emu8080

/-- Python arithmetic right shift on unbounded integers: `v >> n = ⌊v / 2^n⌋`. -/
def pyShr (v : Int) (n : Nat) : Int := Int.fdiv v (2 ^ n)

/-- Python left shift on unbounded integers: `v << n = v * 2^n`. -/
def pyShl (v : Int) (n : Nat) : Int := v * 2 ^ n

/-- Python bitwise and with the all-ones mask `2^k - 1`: on two's-complement
unbounded integers this is exactly `v mod 2^k` (Euclidean). -/
def pyMaskAnd (v : Int) (k : Nat) : Int := v % (2 ^ k : Int)

/-- Python bitwise or on unbounded two's-complement integers. -/
def pyOr (a b : Int) : Int := Int.lor a b

/-- A Python value used as a subscript key: either an int, or some value of
another type (all non-int keys behave alike in the source: `type(key) != int`
raises `TypeError`). -/
inductive PyKey where
  | int (i : Int)
  | nonInt
deriving DecidableEq

/-- The distinct error kinds the flag register can signal:
`InvalidFlagException` from named set/clear, `TypeError` and `IndexError`
from the indexed accessors, `ValueError` from an indexed write of a
non-bit value. -/
inductive FlagErr where
  | invalidFlag (bit : Int)
  | typeError
  | indexError (key : Int)
  | valueError
deriving DecidableEq

namespace Flags

/-- Bit position of the carry flag (`Flags.CARRY = 0`). -/
def CARRY : Nat := 0

/-- Bit position of the parity flag (`Flags.PARITY = 2`). -/
def PARITY : Nat := 2

/-- Bit position of the auxiliary-carry flag (`Flags.AUX_CARRY = 3`). -/
def AUX_CARRY : Nat := 3

/-- Bit position of the zero flag (`Flags.ZERO = 6`). -/
def ZERO : Nat := 6

/-- Bit position of the sign flag (`Flags.SIGN = 7`). -/
def SIGN : Nat := 7

/-- Source `self._valid_bits = (CARRY, PARITY, AUX_CARRY, ZERO, SIGN)`, as the
Python ints an incoming key is compared against. -/
def validBits : List Int := [0, 2, 3, 6, 7]

/-- Source `Flags.__init__`: `self.flags = 2` (bit 1 is always 1). -/
def init : Nat := 2

/-- Source `Flags._set_flag`: `self.flags |= 2 ** bit`. -/
def setFlag (f : Nat) (bit : Nat) : Nat := f ||| 2 ^ bit

/-- Source `Flags._clear_flag`: `self.flags &= ~ 2 ** bit`. On a non-negative word
this clears bit `bit` and keeps every other bit, i.e. `Nat.ldiff`. -/
def clearFlag (f : Nat) (bit : Nat) : Nat := Nat.ldiff f (2 ^ bit)

/-- Source `Flags.set`: raises `InvalidFlagException` unless the bit is one of the
five addressable positions, then delegates to `_set_flag`. -/
def set (f : Nat) (bit : Int) : Except FlagErr Nat :=
  if bit ∈ validBits then .ok (setFlag f bit.toNat) else .error (.invalidFlag bit)

/-- Source `Flags.clear`: raises `InvalidFlagException` unless the bit is one of the
five addressable positions, then delegates to `_clear_flag`. -/
def clear (f : Nat) (bit : Int) : Except FlagErr Nat :=
  if bit ∈ validBits then .ok (clearFlag f bit.toNat) else .error (.invalidFlag bit)

/-- The value read for an addressable bit: `(self.flags & 2 ** key) >> key`. -/
def getBit (f : Nat) (key : Nat) : Nat := (f &&& 2 ^ key) >>> key

/-- Source `Flags.__getitem__`: `TypeError` for a non-int key, `IndexError` for an
int key outside the five addressable bits, else the bit value. -/
def getItem (f : Nat) (key : PyKey) : Except FlagErr Nat :=
  match key with
  | .nonInt => .error .typeError
  | .int i => if i ∈ validBits then .ok (getBit f i.toNat) else .error (.indexError i)

/-- Source `Flags.__setitem__`: `TypeError` for a non-int key, `IndexError` for an
int key outside the five addressable bits, `_clear_flag` for value 0,
`_set_flag` for value 1, `ValueError` otherwise. -/
def setItem (f : Nat) (key : PyKey) (v : Int) : Except FlagErr Nat :=
  match key with
  | .nonInt => .error .typeError
  | .int i =>
    if i ∈ validBits then
      if v = 0 then .ok (clearFlag f i.toNat)
      else if v = 1 then .ok (setFlag f i.toNat)
      else .error .valueError
    else .error (.indexError i)

/-- Source `Flags.clear_all`: `_clear_flag` over the five addressable bits in order. -/
def clearAll (f : Nat) : Nat := validBits.foldl (fun g b => clearFlag g b.toNat) f

/-- The counting loop of `calculate_parity`: `n` iterations of
`if data & 1 == 1: count += 1; data >>= 1`. -/
def parityCount : Int → Nat → Nat
  | _, 0 => 0
  | d, n + 1 => (if pyMaskAnd d 1 = 1 then 1 else 0) + parityCount (pyShr d 1) n

/-- Source `Flags.calculate_parity`: counts 1-bits over 8 shift steps, then calls
`self.set(PARITY)` on an even count and `self.clear(PARITY)` on an odd one
(neither can raise, since `PARITY` is addressable). -/
def calculateParity (f : Nat) (d : Int) : Nat :=
  if parityCount d 8 % 2 = 0 then setFlag f PARITY else clearFlag f PARITY

/-- Source `Flags.set_zero`: `set(ZERO)` when the datum is 0, else `clear(ZERO)`
(neither can raise, since `ZERO` is addressable). -/
def setZero (f : Nat) (d : Int) : Nat :=
  if d = 0 then setFlag f ZERO else clearFlag f ZERO

/-- Source `Flags.set_sign`: `clear(SIGN)`, then `set(SIGN)` when the external
predicate `is_negative` (from `utils`, modeled by its boolean result)
holds (neither call can raise, since `SIGN` is addressable). -/
def setSign (f : Nat) (neg : Bool) : Nat :=
  if neg then setFlag (clearFlag f SIGN) SIGN else clearFlag f SIGN

end Flags

/-- One public operation on the flag register, with its arguments. -/
inductive FlagOp where
  | set (bit : Int)
  | clear (bit : Int)
  | getItem (key : PyKey)
  | setItem (key : PyKey) (v : Int)
  | clearAll
  | calcParity (d : Int)
  | setZero (d : Int)
  | setSign (neg : Bool)
deriving DecidableEq

/-- A raising flag operation leaves the word untouched (every raise in the
source happens before any mutation). -/
def keepFlagsOnErr (f : Nat) : Except FlagErr Nat → Nat
  | .ok g => g
  | .error _ => f

/-- State transition of one public flag operation (reads leave the word
unchanged; raising calls leave it unchanged). -/
def FlagOp.step (f : Nat) : FlagOp → Nat
  | .set b => keepFlagsOnErr f (Flags.set f b)
  | .clear b => keepFlagsOnErr f (Flags.clear f b)
  | .getItem _ => f
  | .setItem k v => keepFlagsOnErr f (Flags.setItem f k v)
  | .clearAll => Flags.clearAll f
  | .calcParity d => Flags.calculateParity f d
  | .setZero d => Flags.setZero f d
  | .setSign n => Flags.setSign f n

/-- Run a sequence of public flag operations from a given word. -/
def Flags.run (f : Nat) (ops : List FlagOp) : Nat := ops.foldl FlagOp.step f

/-- The error kinds of the register file: `TypeError` and `IndexError` from
the indexed accessors, `InvalidPairException` from `get_address_from_pair`,
and `KeyError` from a raw dict read of an absent key (reachable only through
a caller-supplied bogus pair descriptor). -/
inductive RegErr where
  | typeError
  | indexError (code : Int)
  | invalidPair
  | keyError
deriving DecidableEq

/-- Source `RegisterPair = namedtuple("RegisterPair", ["hi", "lo"])` — an immutable
descriptor holding two register codes. -/
structure RegisterPair where
  hi : Int
  lo : Int
deriving DecidableEq

namespace Registers

/-- Register code `Registers.B = 0`. -/
def B : Int := 0

/-- Register code `Registers.C = 1`. -/
def C : Int := 1

/-- Register code `Registers.D = 2`. -/
def D : Int := 2

/-- Register code `Registers.E = 3`. -/
def E : Int := 3

/-- Register code `Registers.H = 4`. -/
def H : Int := 4

/-- Register code `Registers.L = 5`. -/
def L : Int := 5

/-- Register code `Registers.M = 6` (memory reference through H/L; not a key
of the register dict). -/
def M : Int := 6

/-- Register code `Registers.A = 7`. -/
def A : Int := 7

end Registers

/-- The register file: the Python dict `self._registers` modeled as its key
list (in insertion order) plus a total valuation; only keys in `keys` are
readable. `_pairs` and `_rp` are instance constants, modeled as the global
definitions below. -/
structure Registers where
  keys : List Int
  vals : Int → Int

namespace Registers

/-- Source `Registers.__init__`: keys B,C,D,E,H,L,A (M absent), all values 0. -/
def init : Registers := ⟨[B, C, D, E, H, L, A], fun _ => 0⟩

/-- Source `self._pairs`: maps the high-register codes H, B, D to their pair
descriptors; any other code is absent. -/
def pairsOf (code : Int) : Option RegisterPair :=
  if code = H then some ⟨H, L⟩
  else if code = B then some ⟨B, C⟩
  else if code = D then some ⟨D, E⟩
  else none

/-- Source `self._rp`: the pair descriptors (B,C), (D,E), (H,L) in list order. -/
def rp : List RegisterPair := [⟨B, C⟩, ⟨D, E⟩, ⟨H, L⟩]

/-- A raw Python dict write `self._registers[c] = v`: creates the key when
absent, overwrites the value. -/
def dictSet (r : Registers) (c : Int) (v : Int) : Registers :=
  ⟨if c ∈ r.keys then r.keys else r.keys ++ [c],
   fun x => if x = c then v else r.vals x⟩

/-- Source `Registers.__getitem__`: `TypeError` for a non-int key, `IndexError` for
an int code that is not a dict key, else the stored value. -/
def getItem (r : Registers) (k : PyKey) : Except RegErr Int :=
  match k with
  | .nonInt => .error .typeError
  | .int c => if c ∈ r.keys then .ok (r.vals c) else .error (.indexError c)

/-- Source `Registers.__setitem__`: `TypeError` for a non-int key, `IndexError` for
an int code that is not a dict key, else stores the value unmasked. -/
def setItem (r : Registers) (k : PyKey) (v : Int) : Except RegErr Registers :=
  match k with
  | .nonInt => .error .typeError
  | .int c => if c ∈ r.keys then .ok (r.dictSet c v) else .error (.indexError c)

/-- Source `Registers.get_address_from_pair`: `InvalidPairException` unless the code
is a key of `_pairs` (H, B or D), else `(hi << 8) | lo` of the pair's current
contents (the raw dict reads raise `KeyError` on an absent key). -/
def getAddressFromPair (r : Registers) (register : Int) : Except RegErr Int :=
  match pairsOf register with
  | none => .error .invalidPair
  | some p =>
    if p.hi ∈ r.keys ∧ p.lo ∈ r.keys then .ok (pyOr (pyShl (r.vals p.hi) 8) (r.vals p.lo))
    else .error .keyError

/-- Source `Registers.get_value_from_pair`: `(hi << 8) | lo` of the given pair's
current contents (raw dict reads: `KeyError` on an absent key). -/
def getValueFromPair (r : Registers) (p : RegisterPair) : Except RegErr Int :=
  if p.hi ∈ r.keys ∧ p.lo ∈ r.keys then .ok (pyOr (pyShl (r.vals p.hi) 8) (r.vals p.lo))
  else .error .keyError

/-- Source `Registers.set_value_pair`: raw dict writes
`self._registers[pair.hi] = (val >> 8) & 0xff` then
`self._registers[pair.lo] = val & 0xff` (never raises; can create keys). -/
def setValuePair (r : Registers) (p : RegisterPair) (v : Int) : Registers :=
  (r.dictSet p.hi (pyMaskAnd (pyShr v 8) 8)).dictSet p.lo (pyMaskAnd v 8)

/-- Source `Registers.get_register_from_opcode` (static, pure):
`(opcode & (7 << bit_offset)) >> bit_offset` on non-negative ints. -/
def getRegisterFromOpcode (opcode bitOffset : Nat) : Nat :=
  (opcode &&& (7 <<< bitOffset)) >>> bitOffset

/-- Python list subscript `l[i]`: non-negative indexes from the front,
negative indexes from the back, `IndexError` outside `[-len, len)`. -/
def pyListGet (l : List RegisterPair) (i : Int) : Except RegErr RegisterPair :=
  if h : 0 ≤ i ∧ i < l.length then .ok (l.get ⟨i.toNat, by omega⟩)
  else if h2 : -(l.length : Int) ≤ i ∧ i < 0 then .ok (l.get ⟨((l.length : Int) + i).toNat, by omega⟩)
  else .error (.indexError i)

/-- Source `Registers.get_pairs`: `self._rp[pair_encoding]`, Python list indexing
over the three pair descriptors. -/
def getPairs (pairEncoding : Int) : Except RegErr RegisterPair :=
  pyListGet rp pairEncoding

end Registers

/-- One public operation on the register file, with its arguments
(`get_register_from_opcode` is static and touches no state). -/
inductive RegOp where
  | getItem (k : PyKey)
  | setItem (k : PyKey) (v : Int)
  | getAddressFromPair (code : Int)
  | getValueFromPair (p : RegisterPair)
  | setValuePair (p : RegisterPair) (v : Int)
  | getPairs (i : Int)
deriving DecidableEq

/-- A raising register operation leaves the file untouched (every raise in
the source happens before any mutation). -/
def keepRegsOnErr (r : Registers) : Except RegErr Registers → Registers
  | .ok r2 => r2
  | .error _ => r

/-- State transition of one public register operation (reads and raising
calls leave the file unchanged). -/
def RegOp.step (r : Registers) : RegOp → Registers
  | .getItem _ => r
  | .setItem k v => keepRegsOnErr r (r.setItem k v)
  | .getAddressFromPair _ => r
  | .getValueFromPair _ => r
  | .setValuePair p v => r.setValuePair p v
  | .getPairs _ => r

/-- Run a sequence of public register operations from a given state. -/
def Registers.run (r : Registers) (ops : List RegOp) : Registers :=
  ops.foldl RegOp.step r

/-- The seven scalar register codes that back storage cells (the dict keys of
a fresh register file): B, C, D, E, H, L, A. -/
def scalarCodes : List Int := [0, 1, 2, 3, 4, 5, 7]

/-- A register operation whose indexed scalar write (if it is one) stores a
byte-ranged value. Non-write operations satisfy this vacuously. -/
def opWritesBytes : RegOp → Prop
  | RegOp.setItem _ v => 0 ≤ v ∧ v ≤ 255
  | _ => True

/-- The register-file invariant: every scalar register holds a byte and every
scalar code is a dict key. -/
def RegInvariant (r : Registers) : Prop :=
  (∀ c ∈ scalarCodes, 0 ≤ r.vals c ∧ r.vals c ≤ 255) ∧ ∀ c ∈ scalarCodes, c ∈ r.keys

/-! ### Helper lemmas on the flag word -/

theorem testBit_setFlag_self (f b : Nat) : (Flags.setFlag f b).testBit b = true := by
  simp [Flags.setFlag, Nat.testBit_lor, Nat.testBit_two_pow_self]

theorem testBit_setFlag_of_ne (f : Nat) {b i : Nat} (h : b ≠ i) :
    (Flags.setFlag f b).testBit i = f.testBit i := by
  simp [Flags.setFlag, Nat.testBit_lor, Nat.testBit_two_pow_of_ne h]

theorem testBit_clearFlag_self (f b : Nat) : (Flags.clearFlag f b).testBit b = false := by
  simp [Flags.clearFlag, Nat.testBit_ldiff, Nat.testBit_two_pow_self]

theorem testBit_clearFlag_of_ne (f : Nat) {b i : Nat} (h : b ≠ i) :
    (Flags.clearFlag f b).testBit i = f.testBit i := by
  simp [Flags.clearFlag, Nat.testBit_ldiff, Nat.testBit_two_pow_of_ne h]

theorem getBit_eq_toNat (f k : Nat) : Flags.getBit f k = (f.testBit k).toNat := by
  rw [Flags.getBit, Nat.and_two_pow, Nat.shiftRight_eq_div_pow,
    Nat.mul_div_cancel _ (Nat.two_pow_pos k)]

theorem flags_set_ok (f : Nat) {b : Int} (hb : b ∈ Flags.validBits) :
    Flags.set f b = .ok (Flags.setFlag f b.toNat) := by
  simp [Flags.set, hb]

theorem flags_clear_ok (f : Nat) {b : Int} (hb : b ∈ Flags.validBits) :
    Flags.clear f b = .ok (Flags.clearFlag f b.toNat) := by
  simp [Flags.clear, hb]

theorem flags_getItem_ok (f : Nat) {b : Int} (hb : b ∈ Flags.validBits) :
    Flags.getItem f (.int b) = .ok (Flags.getBit f b.toNat) := by
  simp [Flags.getItem, hb]

theorem validBits_toNat_ne_one {b : Int} (hb : b ∈ Flags.validBits) : b.toNat ≠ 1 := by
  simp [Flags.validBits] at hb
  rcases hb with rfl | rfl | rfl | rfl | rfl <;> decide

/-- Every single public flag operation preserves the always-1 reserved bit 1. -/
theorem step_testBit_one (f : Nat) (op : FlagOp) (h : f.testBit 1 = true) :
    (FlagOp.step f op).testBit 1 = true := by
  cases op with
  | set b =>
    by_cases hb : b ∈ Flags.validBits
    · simp only [FlagOp.step, flags_set_ok f hb, keepFlagsOnErr]
      rw [testBit_setFlag_of_ne f (validBits_toNat_ne_one hb)]
      exact h
    · simp only [FlagOp.step, Flags.set, if_neg hb, keepFlagsOnErr]
      exact h
  | clear b =>
    by_cases hb : b ∈ Flags.validBits
    · simp only [FlagOp.step, flags_clear_ok f hb, keepFlagsOnErr]
      rw [testBit_clearFlag_of_ne f (validBits_toNat_ne_one hb)]
      exact h
    · simp only [FlagOp.step, Flags.clear, if_neg hb, keepFlagsOnErr]
      exact h
  | getItem k => exact h
  | setItem k v =>
    cases k with
    | nonInt => exact h
    | int i =>
      by_cases hi : i ∈ Flags.validBits
      · by_cases h0 : v = 0
        · simp only [FlagOp.step, Flags.setItem, if_pos hi, if_pos h0, keepFlagsOnErr]
          rw [testBit_clearFlag_of_ne f (validBits_toNat_ne_one hi)]
          exact h
        · by_cases h1 : v = 1
          · simp only [FlagOp.step, Flags.setItem, if_pos hi, if_neg h0, if_pos h1,
              keepFlagsOnErr]
            rw [testBit_setFlag_of_ne f (validBits_toNat_ne_one hi)]
            exact h
          · simp only [FlagOp.step, Flags.setItem, if_pos hi, if_neg h0, if_neg h1,
              keepFlagsOnErr]
            exact h
      · simp only [FlagOp.step, Flags.setItem, if_neg hi, keepFlagsOnErr]
        exact h
  | clearAll =>
    show (Flags.clearAll f).testBit 1 = true
    have hc : Flags.clearAll f =
        Flags.clearFlag (Flags.clearFlag (Flags.clearFlag (Flags.clearFlag
          (Flags.clearFlag f 0) 2) 3) 6) 7 := rfl
    rw [hc, testBit_clearFlag_of_ne _ (by decide), testBit_clearFlag_of_ne _ (by decide),
      testBit_clearFlag_of_ne _ (by decide), testBit_clearFlag_of_ne _ (by decide),
      testBit_clearFlag_of_ne _ (by decide)]
    exact h
  | calcParity d =>
    show (Flags.calculateParity f d).testBit 1 = true
    rw [Flags.calculateParity]
    split
    · rw [testBit_setFlag_of_ne f (by decide : Flags.PARITY ≠ 1)]; exact h
    · rw [testBit_clearFlag_of_ne f (by decide : Flags.PARITY ≠ 1)]; exact h
  | setZero d =>
    show (Flags.setZero f d).testBit 1 = true
    rw [Flags.setZero]
    split
    · rw [testBit_setFlag_of_ne f (by decide : Flags.ZERO ≠ 1)]; exact h
    · rw [testBit_clearFlag_of_ne f (by decide : Flags.ZERO ≠ 1)]; exact h
  | setSign neg =>
    show (Flags.setSign f neg).testBit 1 = true
    rw [Flags.setSign]
    split
    · rw [testBit_setFlag_of_ne _ (by decide : Flags.SIGN ≠ 1),
        testBit_clearFlag_of_ne f (by decide : Flags.SIGN ≠ 1)]
      exact h
    · rw [testBit_clearFlag_of_ne f (by decide : Flags.SIGN ≠ 1)]; exact h

theorem run_testBit_one (ops : List FlagOp) (f : Nat) (h : f.testBit 1 = true) :
    (Flags.run f ops).testBit 1 = true := by
  induction ops generalizing f with
  | nil => exact h
  | cons op rest ih =>
    rw [Flags.run, List.foldl_cons]
    exact ih _ (step_testBit_one f op h)

/-! ### Cast lemmas for the Python integer primitives -/

theorem pyMaskAnd_natCast (n k : Nat) : pyMaskAnd (n : Int) k = ((n % 2 ^ k : Nat) : Int) := by
  simp only [pyMaskAnd]
  push_cast
  ring

theorem pyShr_natCast (n k : Nat) : pyShr (n : Int) k = ((n / 2 ^ k : Nat) : Int) := by
  simp only [pyShr]
  rw [show ((2 : Int) ^ k) = ((2 ^ k : Nat) : Int) by push_cast; ring]
  exact_mod_cast (Int.ofNat_fdiv n (2 ^ k)).symm

theorem pyShl_natCast (n k : Nat) : pyShl (n : Int) k = ((n * 2 ^ k : Nat) : Int) := by
  simp only [pyShl]
  push_cast
  ring

theorem pyOr_natCast (a b : Nat) : pyOr (a : Int) (b : Int) = ((a ||| b : Nat) : Int) := rfl

/-! ### The parity-count loop -/

theorem parityCount_zero (k : Nat) : Flags.parityCount 0 k = 0 := by
  induction k with
  | zero => rfl
  | succ k ih =>
    have hstep : Flags.parityCount 0 (k + 1) =
        (if pyMaskAnd 0 1 = 1 then 1 else 0) + Flags.parityCount (pyShr 0 1) k := rfl
    rw [hstep]
    simpa [pyMaskAnd, pyShr, Int.zero_fdiv] using ih

/-- For a value below `2^k`, `k` iterations of the counting loop count all of
its binary digits. -/
theorem parityCount_natCast (k : Nat) : ∀ n : Nat, n < 2 ^ k →
    Flags.parityCount (n : Int) k = (Nat.digits 2 n).sum := by
  induction k with
  | zero =>
    intro n hn
    have : n = 0 := by omega
    subst this
    simp [Flags.parityCount]
  | succ k ih =>
    intro n hn
    rcases Nat.eq_zero_or_pos n with rfl | hpos
    · simpa using parityCount_zero (k + 1)
    · have hstep : Flags.parityCount (n : Int) (k + 1) =
          (if pyMaskAnd (n : Int) 1 = 1 then 1 else 0) +
            Flags.parityCount (pyShr (n : Int) 1) k := rfl
      have hdig : Nat.digits 2 n = n % 2 :: Nat.digits 2 (n / 2) :=
        Nat.digits_def' (by norm_num) hpos
      have hdiv : n / 2 < 2 ^ k := by
        have h2 : (2 : Nat) ^ (k + 1) = 2 ^ k * 2 := by ring
        rw [h2] at hn
        omega
      rw [hstep, pyMaskAnd_natCast, pyShr_natCast]
      have hmod : n % 2 ^ 1 = n % 2 := by norm_num
      have hdv : n / 2 ^ 1 = n / 2 := by norm_num
      rw [hmod, hdv, ih (n / 2) hdiv, hdig, List.sum_cons]
      rcases Nat.mod_two_eq_zero_or_one n with h | h <;> simp [h]

/-- Claim C4 helper: what calculate_parity does to the word, for a byte-ranged
datum, phrased through the binary-digit count. -/
theorem claimC4 (f : Nat) (d : Int) (h0 : 0 ≤ d) (h255 : d ≤ 255) :
    ((Even (Nat.digits 2 d.toNat).sum →
        (Flags.calculateParity f d).testBit Flags.PARITY = true) ∧
      (¬ Even (Nat.digits 2 d.toNat).sum →
        (Flags.calculateParity f d).testBit Flags.PARITY = false)) ∧
    (∀ i : Nat, i ≠ Flags.PARITY → (Flags.calculateParity f d).testBit i = f.testBit i) ∧
    (Flags.calculateParity f 255).testBit Flags.PARITY = true ∧
    (Flags.calculateParity f 1).testBit Flags.PARITY = false := by
  obtain ⟨n, rfl⟩ := Int.eq_ofNat_of_zero_le h0
  have hn : n < 2 ^ 8 := by
    have h : n ≤ 255 := by exact_mod_cast h255
    rw [show (2 : Nat) ^ 8 = 256 from rfl]
    omega
  have hcount := parityCount_natCast 8 n hn
  have htn : ((n : Int)).toNat = n := Int.toNat_natCast n
  refine ⟨⟨?_, ?_⟩, ?_, ?_, ?_⟩
  · intro he
    rw [htn] at he
    rw [Flags.calculateParity, if_pos (by rw [hcount]; exact Nat.even_iff.mp he)]
    exact testBit_setFlag_self f Flags.PARITY
  · intro he
    rw [htn] at he
    rw [Flags.calculateParity,
      if_neg (by rw [hcount]; intro hx; exact he (Nat.even_iff.mpr hx))]
    exact testBit_clearFlag_self f Flags.PARITY
  · intro i hi
    rw [Flags.calculateParity]
    split
    · exact testBit_setFlag_of_ne f (fun hx => hi hx.symm)
    · exact testBit_clearFlag_of_ne f (fun hx => hi hx.symm)
  · rw [Flags.calculateParity, if_pos (by decide)]
    exact testBit_setFlag_self f Flags.PARITY
  · rw [Flags.calculateParity, if_neg (by decide)]
    exact testBit_clearFlag_self f Flags.PARITY

/-- Witness for C4 at the fresh word and the spec's 0xFF example. -/
theorem claimC4_witness : (Flags.calculateParity 2 255).testBit Flags.PARITY = true :=
  (claimC4 2 255 (by decide) (by decide)).2.2.1

/-! ### Claim theorems for the flag register -/

/-- Claim C3: register_from_opcode is the pure bit extraction
(opcode >> bit_offset) & 0b111 for all non-negative inputs, with the spec's
concrete example. -/
theorem claimC3 :
    (∀ opcode bitOffset : Nat,
      Registers.getRegisterFromOpcode opcode bitOffset = (opcode >>> bitOffset) &&& 7) ∧
    Registers.getRegisterFromOpcode 126 3 = 7 := by
  refine ⟨fun o b => ?_, by decide⟩
  apply Nat.eq_of_testBit_eq
  intro i
  simp [Registers.getRegisterFromOpcode, Nat.testBit_shiftRight, Nat.testBit_land,
    Nat.testBit_shiftLeft, Nat.add_sub_cancel_left]

/-- Claim C7: for every addressable bit b and every flag word, set(b) makes
the indexed read return 1 and clear(b) makes it return 0, and both touch no
other bit of the word. -/
theorem claimC7 (f : Nat) (b : Int) (hb : b ∈ Flags.validBits) :
    (∃ f1, Flags.set f b = .ok f1 ∧ Flags.getItem f1 (.int b) = .ok 1 ∧
      ∀ i : Nat, i ≠ b.toNat → f1.testBit i = f.testBit i) ∧
    (∃ f2, Flags.clear f b = .ok f2 ∧ Flags.getItem f2 (.int b) = .ok 0 ∧
      ∀ i : Nat, i ≠ b.toNat → f2.testBit i = f.testBit i) := by
  refine ⟨⟨Flags.setFlag f b.toNat, flags_set_ok f hb, ?_, ?_⟩,
    ⟨Flags.clearFlag f b.toNat, flags_clear_ok f hb, ?_, ?_⟩⟩
  · rw [flags_getItem_ok _ hb, getBit_eq_toNat, testBit_setFlag_self]; rfl
  · intro i hi
    exact testBit_setFlag_of_ne f (fun hx => hi hx.symm)
  · rw [flags_getItem_ok _ hb, getBit_eq_toNat, testBit_clearFlag_self]; rfl
  · intro i hi
    exact testBit_clearFlag_of_ne f (fun hx => hi hx.symm)

/-- Witness for C7 at the carry bit on the fresh flag word. -/
theorem claimC7_witness :
    (∃ f1, Flags.set 2 0 = .ok f1 ∧ Flags.getItem f1 (.int 0) = .ok 1 ∧
      ∀ i : Nat, i ≠ (0 : Int).toNat → f1.testBit i = (2 : Nat).testBit i) ∧
    (∃ f2, Flags.clear 2 0 = .ok f2 ∧ Flags.getItem f2 (.int 0) = .ok 0 ∧
      ∀ i : Nat, i ≠ (0 : Int).toNat → f2.testBit i = (2 : Nat).testBit i) :=
  claimC7 2 0 (by decide)

/-- Claim C8: the two flag entry points signal distinct error kinds for the
same invalid bit, plus type- and value-error kinds on the indexed accessors,
and a raising call never changes the flag word. -/
theorem claimC8 (f : Nat) (b : Int) (hb : b ∉ Flags.validBits) (v : Int)
    (hv0 : v ≠ 0) (hv1 : v ≠ 1) (c : Int) (hc : c ∈ Flags.validBits) :
    (Flags.set f b = .error (.invalidFlag b) ∧ FlagOp.step f (.set b) = f) ∧
    (Flags.clear f b = .error (.invalidFlag b) ∧ FlagOp.step f (.clear b) = f) ∧
    (Flags.getItem f (.int b) = .error (.indexError b) ∧
      Flags.setItem f (.int b) v = .error (.indexError b) ∧
      FlagOp.step f (.setItem (.int b) v) = f) ∧
    FlagErr.invalidFlag b ≠ FlagErr.indexError b ∧
    (Flags.getItem f .nonInt = .error .typeError ∧
      Flags.setItem f .nonInt v = .error .typeError ∧
      FlagOp.step f (.setItem .nonInt v) = f) ∧
    (Flags.setItem f (.int c) v = .error .valueError ∧
      FlagOp.step f (.setItem (.int c) v) = f) := by
  refine ⟨⟨?_, ?_⟩, ⟨?_, ?_⟩, ⟨?_, ?_, ?_⟩, ?_, ⟨rfl, rfl, rfl⟩, ⟨?_, ?_⟩⟩
  · simp [Flags.set, hb]
  · simp [FlagOp.step, Flags.set, hb, keepFlagsOnErr]
  · simp [Flags.clear, hb]
  · simp [FlagOp.step, Flags.clear, hb, keepFlagsOnErr]
  · simp [Flags.getItem, hb]
  · simp [Flags.setItem, hb]
  · simp [FlagOp.step, Flags.setItem, hb, keepFlagsOnErr]
  · intro hx
    exact FlagErr.noConfusion hx
  · simp [Flags.setItem, hc, hv0, hv1]
  · simp [FlagOp.step, Flags.setItem, hc, hv0, hv1, keepFlagsOnErr]

/-- Witness for C8: bit 1 is unaddressable, value 2 is not a bit value. -/
theorem claimC8_witness :
    Flags.set 2 1 = .error (.invalidFlag 1) ∧
    Flags.getItem 2 (.int 1) = .error (.indexError 1) ∧
    Flags.setItem 2 (.int 0) 2 = .error .valueError :=
  have h := claimC8 2 1 (by decide) 2 (by decide) (by decide) 0 (by decide)
  ⟨h.1.1, h.2.2.1.1, h.2.2.2.2.2.1⟩

/-- Claim C5: a fresh flag register holds the word 2 (only the reserved bit 1
set, all five addressable bits read as 0), and bit 1 stays set across every
sequence of public operations. -/
theorem claimC5 :
    Flags.init = 2 ∧
    (∀ b ∈ Flags.validBits, Flags.getItem Flags.init (.int b) = .ok 0) ∧
    ∀ ops : List FlagOp, (Flags.run Flags.init ops).testBit 1 = true := by
  refine ⟨rfl, ?_, fun ops => run_testBit_one ops Flags.init (by decide)⟩
  intro b hb
  simp only [Flags.validBits, List.mem_cons, List.not_mem_nil, or_false] at hb
  rcases hb with rfl | rfl | rfl | rfl | rfl <;> rfl

/-- Witness for C5: the addressable-bit read at CARRY, and a concrete
operation sequence exercising the invariant. -/
theorem claimC5_witness :
    Flags.getItem Flags.init (.int 0) = .ok 0 ∧
    (Flags.run Flags.init [FlagOp.setSign true, FlagOp.clearAll]).testBit 1 = true :=
  ⟨claimC5.2.1 0 (by decide), claimC5.2.2 [FlagOp.setSign true, FlagOp.clearAll]⟩

/-! ### Helper lemmas on the register file -/

theorem mem_dictSet_self (r : Registers) (c v : Int) : c ∈ (r.dictSet c v).keys := by
  by_cases h : c ∈ r.keys <;> simp [Registers.dictSet, h]

theorem mem_dictSet_of_mem (r : Registers) (c v : Int) {x : Int} (hx : x ∈ r.keys) :
    x ∈ (r.dictSet c v).keys := by
  by_cases h : c ∈ r.keys <;> simp [Registers.dictSet, h, hx]

theorem getValueFromPair_eq (r : Registers) (p : RegisterPair)
    (h1 : p.hi ∈ r.keys) (h2 : p.lo ∈ r.keys) :
    r.getValueFromPair p = .ok (pyOr (pyShl (r.vals p.hi) 8) (r.vals p.lo)) := by
  simp [Registers.getValueFromPair, h1, h2]

theorem getAddressFromPair_eq (r : Registers) (code : Int) (p : RegisterPair)
    (hp : Registers.pairsOf code = some p) (h1 : p.hi ∈ r.keys) (h2 : p.lo ∈ r.keys) :
    r.getAddressFromPair code = .ok (pyOr (pyShl (r.vals p.hi) 8) (r.vals p.lo)) := by
  unfold Registers.getAddressFromPair
  rw [hp]
  show (if p.hi ∈ r.keys ∧ p.lo ∈ r.keys then
      (Except.ok (pyOr (pyShl (r.vals p.hi) 8) (r.vals p.lo)) : Except RegErr Int)
    else .error .keyError) = _
  rw [if_pos ⟨h1, h2⟩]

theorem getAddressFromPair_invalid (r : Registers) {code : Int}
    (hp : Registers.pairsOf code = none) :
    r.getAddressFromPair code = .error .invalidPair := by
  unfold Registers.getAddressFromPair
  rw [hp]

theorem pairsOf_none {code : Int} (h1 : code ≠ Registers.B) (h2 : code ≠ Registers.D)
    (h3 : code ≠ Registers.H) : Registers.pairsOf code = none := by
  simp [Registers.pairsOf, h1, h2, h3]

theorem setValuePair_vals (r : Registers) (p : RegisterPair) (v : Int) (hne : p.hi ≠ p.lo) :
    (r.setValuePair p v).vals p.hi = pyMaskAnd (pyShr v 8) 8 ∧
    (r.setValuePair p v).vals p.lo = pyMaskAnd v 8 := by
  constructor <;> simp [Registers.setValuePair, Registers.dictSet, hne]

theorem setValuePair_keys (r : Registers) (p : RegisterPair) (v : Int) :
    p.hi ∈ (r.setValuePair p v).keys ∧ p.lo ∈ (r.setValuePair p v).keys :=
  ⟨mem_dictSet_of_mem _ _ _ (mem_dictSet_self r p.hi _), mem_dictSet_self _ p.lo _⟩

theorem pyMaskAnd8_bounds (v : Int) : 0 ≤ pyMaskAnd v 8 ∧ pyMaskAnd v 8 ≤ 255 := by
  unfold pyMaskAnd
  have h1 : 0 ≤ v % (2 ^ 8 : Int) := Int.emod_nonneg v (by norm_num)
  have h2 : v % (2 ^ 8 : Int) < 2 ^ 8 := Int.emod_lt_of_pos v (by norm_num)
  norm_num at h1 h2 ⊢
  omega

theorem pyOr_shl_eq_add (a b : Nat) (hb : b < 2 ^ 8) :
    pyOr (pyShl (a : Int) 8) (b : Int) = ((a * 2 ^ 8 + b : Nat) : Int) := by
  rw [pyShl_natCast, pyOr_natCast]
  congr 1
  calc a * 2 ^ 8 ||| b = 2 ^ 8 * a ||| b := by rw [Nat.mul_comm]
    _ = 2 ^ 8 * a + b := (Nat.mul_add_lt_is_or hb a).symm
    _ = a * 2 ^ 8 + b := by rw [Nat.mul_comm]

theorem hiLo_add (n : Nat) : n / 2 ^ 8 % 2 ^ 8 * 2 ^ 8 + n % 2 ^ 8 = n % 2 ^ 16 := by
  have h1 : n % 2 ^ 16 / 2 ^ 8 = n / 2 ^ 8 % 2 ^ 8 := by
    rw [show (2 : Nat) ^ 16 = 2 ^ 8 * 2 ^ 8 by norm_num, Nat.mod_mul_right_div_self]
  have h2 : n % 2 ^ 16 % 2 ^ 8 = n % 2 ^ 8 := Nat.mod_mod_of_dvd n ⟨2 ^ 8, by norm_num⟩
  calc n / 2 ^ 8 % 2 ^ 8 * 2 ^ 8 + n % 2 ^ 8
      = 2 ^ 8 * (n % 2 ^ 16 / 2 ^ 8) + n % 2 ^ 16 % 2 ^ 8 := by rw [h1, h2, Nat.mul_comm]
    _ = n % 2 ^ 16 := Nat.div_add_mod _ _

theorem pyOr_bounds (hi lo : Int) (h1 : 0 ≤ hi) (h2 : hi ≤ 255) (h3 : 0 ≤ lo)
    (h4 : lo ≤ 255) : 0 ≤ pyOr (pyShl hi 8) lo ∧ pyOr (pyShl hi 8) lo ≤ 65535 := by
  obtain ⟨a, rfl⟩ := Int.eq_ofNat_of_zero_le h1
  obtain ⟨b, rfl⟩ := Int.eq_ofNat_of_zero_le h3
  have ha : a ≤ 255 := by exact_mod_cast h2
  have hb : b ≤ 255 := by exact_mod_cast h4
  rw [pyOr_shl_eq_add a b (by rw [show (2 : Nat) ^ 8 = 256 from rfl]; omega)]
  constructor
  · exact Int.natCast_nonneg _
  · have h : a * 2 ^ 8 + b ≤ 65535 := by
      rw [show (2 : Nat) ^ 8 = 256 from rfl]
      omega
    exact_mod_cast h

theorem regInvariant_init : RegInvariant Registers.init := by
  refine ⟨fun c _ => ?_, fun c hc => hc⟩
  constructor <;> norm_num [Registers.init]

theorem regInvariant_step (r : Registers) (op : RegOp) (hr : RegInvariant r)
    (hop : opWritesBytes op) : RegInvariant (RegOp.step r op) := by
  cases op with
  | getItem k => exact hr
  | getAddressFromPair c => exact hr
  | getValueFromPair p => exact hr
  | getPairs i => exact hr
  | setItem k v =>
    cases k with
    | nonInt => exact hr
    | int c =>
      by_cases hc : c ∈ r.keys
      · have hv : 0 ≤ v ∧ v ≤ 255 := hop
        have hstep : RegOp.step r (RegOp.setItem (.int c) v) = r.dictSet c v := by
          simp [RegOp.step, Registers.setItem, hc, keepRegsOnErr]
        rw [hstep]
        refine ⟨fun c2 hc2 => ?_, fun c2 hc2 => mem_dictSet_of_mem r c v (hr.2 c2 hc2)⟩
        simp only [Registers.dictSet]
        by_cases he : c2 = c
        · simpa [he] using hv
        · simpa [he] using hr.1 c2 hc2
      · have hstep : RegOp.step r (RegOp.setItem (.int c) v) = r := by
          simp [RegOp.step, Registers.setItem, hc, keepRegsOnErr]
        rw [hstep]
        exact hr
  | setValuePair p v =>
    show RegInvariant (r.setValuePair p v)
    refine ⟨fun c2 hc2 => ?_, fun c2 hc2 =>
      mem_dictSet_of_mem _ _ _ (mem_dictSet_of_mem _ _ _ (hr.2 c2 hc2))⟩
    simp only [Registers.setValuePair, Registers.dictSet]
    by_cases h1 : c2 = p.lo
    · simpa [h1] using pyMaskAnd8_bounds v
    · by_cases h2 : c2 = p.hi
      · have hne2 : ¬ p.hi = p.lo := by rw [← h2]; exact h1
        simpa [h2, hne2] using pyMaskAnd8_bounds (pyShr v 8)
      · simpa [h1, h2] using hr.1 c2 hc2

theorem regInvariant_run (ops : List RegOp) : ∀ r : Registers, RegInvariant r →
    (∀ op ∈ ops, opWritesBytes op) → RegInvariant (Registers.run r ops) := by
  induction ops with
  | nil => exact fun r hr _ => hr
  | cons op rest ih =>
    intro r hr hops
    exact ih (RegOp.step r op) (regInvariant_step r op hr (hops op (List.mem_cons_self op rest)))
      (fun o ho => hops o (List.mem_cons_of_mem op ho))

/-! ### Claim theorems for the register file -/

/-- Claim C1 counterexample: the indexed scalar write performs no masking, so
one public operation writing 256 into register B leaves B holding 256,
outside [0,255]. This refutes the claim as stated. -/
theorem claimC1_counterexample :
    (Registers.run Registers.init [RegOp.setItem (.int Registers.B) 256]).vals Registers.B =
      256 ∧
    ¬ (Registers.run Registers.init [RegOp.setItem (.int Registers.B) 256]).vals Registers.B ≤
      255 :=
  ⟨rfl, by decide⟩

/-- Claim C1 (amended): after any sequence of public operations whose indexed
scalar writes all store values in [0,255], every scalar register holds a
value in [0,255] and every standard pair's composed value is in [0,65535]
(pair writes mask unconditionally; reads mutate nothing). -/
theorem claimC1_amended (ops : List RegOp) (h : ∀ op ∈ ops, opWritesBytes op) :
    (∀ c ∈ scalarCodes, 0 ≤ (Registers.run Registers.init ops).vals c ∧
      (Registers.run Registers.init ops).vals c ≤ 255) ∧
    ∀ p ∈ Registers.rp, ∃ w,
      (Registers.run Registers.init ops).getValueFromPair p = .ok w ∧ 0 ≤ w ∧ w ≤ 65535 := by
  have hinv := regInvariant_run ops Registers.init regInvariant_init h
  refine ⟨hinv.1, fun p hp => ?_⟩
  have hmem : p.hi ∈ scalarCodes ∧ p.lo ∈ scalarCodes := by
    simp [Registers.rp] at hp
    rcases hp with rfl | rfl | rfl <;> exact ⟨by decide, by decide⟩
  obtain ⟨hhi0, hhi255⟩ := hinv.1 p.hi hmem.1
  obtain ⟨hlo0, hlo255⟩ := hinv.1 p.lo hmem.2
  exact ⟨_, getValueFromPair_eq _ _ (hinv.2 p.hi hmem.1) (hinv.2 p.lo hmem.2),
    pyOr_bounds _ _ hhi0 hhi255 hlo0 hlo255⟩

/-- Witness for the amended C1 on a concrete operation sequence, read back at
the accumulator. -/
theorem claimC1_amended_witness :
    0 ≤ (Registers.run Registers.init [RegOp.setItem (.int Registers.A) 200]).vals
      Registers.A ∧
    (Registers.run Registers.init [RegOp.setItem (.int Registers.A) 200]).vals
      Registers.A ≤ 255 :=
  (claimC1_amended [RegOp.setItem (.int Registers.A) 200]
    (by intro op hop; simp at hop; subst hop; exact ⟨by norm_num, by norm_num⟩)).1
    Registers.A (by decide)

/-- Claim C2: writing any non-negative value through a standard pair
descriptor stores the masked high byte in hi, the masked low byte in lo, and
reads back as the value mod 65536. -/
theorem claimC2 (r : Registers) (p : RegisterPair) (hp : p ∈ Registers.rp) (v : Int)
    (hv : 0 ≤ v) :
    (r.setValuePair p v).vals p.hi = pyMaskAnd (pyShr v 8) 8 ∧
    (r.setValuePair p v).vals p.lo = pyMaskAnd v 8 ∧
    (r.setValuePair p v).getValueFromPair p = .ok (v % 65536) := by
  have hne : p.hi ≠ p.lo := by
    simp [Registers.rp] at hp
    rcases hp with rfl | rfl | rfl <;> decide
  obtain ⟨n, rfl⟩ := Int.eq_ofNat_of_zero_le hv
  obtain ⟨hhi, hlo⟩ := setValuePair_vals r p (n : Int) hne
  refine ⟨hhi, hlo, ?_⟩
  have hks := setValuePair_keys r p (n : Int)
  rw [getValueFromPair_eq _ _ hks.1 hks.2, hhi, hlo]
  rw [pyShr_natCast, pyMaskAnd_natCast, pyMaskAnd_natCast]
  rw [pyOr_shl_eq_add _ _ (Nat.mod_lt _ (by norm_num))]
  rw [hiLo_add]
  congr 1

/-- Witness for C2: the spec's HL example, 0x1234 gives H=0x12, L=0x34 and
reads back 0x1234. -/
theorem claimC2_witness :
    (Registers.init.setValuePair ⟨Registers.H, Registers.L⟩ 0x1234).vals Registers.H =
      0x12 ∧
    (Registers.init.setValuePair ⟨Registers.H, Registers.L⟩ 0x1234).vals Registers.L =
      0x34 ∧
    (Registers.init.setValuePair ⟨Registers.H, Registers.L⟩ 0x1234).getValueFromPair
      ⟨Registers.H, Registers.L⟩ = .ok 0x1234 :=
  have h := claimC2 Registers.init ⟨Registers.H, Registers.L⟩ (by decide) 0x1234 (by decide)
  ⟨h.1.trans (by decide), h.2.1.trans (by decide),
    h.2.2.trans (congrArg Except.ok (by decide))⟩

/-- Claim C6: address_from_pair succeeds exactly on the high-register codes
B, D, H, yielding (hi << 8) | lo of the pair's contents, raises InvalidPair
on every other code, and never modifies the register file. -/
theorem claimC6 (r : Registers)
    (hk : ∀ c ∈ ([Registers.B, Registers.C, Registers.D, Registers.E, Registers.H,
      Registers.L] : List Int), c ∈ r.keys) :
    (r.getAddressFromPair Registers.B =
        .ok (pyOr (pyShl (r.vals Registers.B) 8) (r.vals Registers.C)) ∧
      r.getAddressFromPair Registers.D =
        .ok (pyOr (pyShl (r.vals Registers.D) 8) (r.vals Registers.E)) ∧
      r.getAddressFromPair Registers.H =
        .ok (pyOr (pyShl (r.vals Registers.H) 8) (r.vals Registers.L))) ∧
    (∀ code : Int, code ≠ Registers.B → code ≠ Registers.D → code ≠ Registers.H →
      r.getAddressFromPair code = .error .invalidPair) ∧
    ∀ code : Int, RegOp.step r (.getAddressFromPair code) = r := by
  refine ⟨⟨?_, ?_, ?_⟩, fun code h1 h2 h3 =>
    getAddressFromPair_invalid r (pairsOf_none h1 h2 h3), fun _ => rfl⟩
  · exact getAddressFromPair_eq r _ ⟨Registers.B, Registers.C⟩ rfl
      (hk _ (by decide)) (hk _ (by decide))
  · exact getAddressFromPair_eq r _ ⟨Registers.D, Registers.E⟩ rfl
      (hk _ (by decide)) (hk _ (by decide))
  · exact getAddressFromPair_eq r _ ⟨Registers.H, Registers.L⟩ rfl
      (hk _ (by decide)) (hk _ (by decide))

/-- Witness for C6: with H=0x20 and L=0x00 the H-pair address is 0x2000, and
code C raises InvalidPair. -/
theorem claimC6_witness :
    (Registers.run Registers.init [RegOp.setItem (.int Registers.H) 0x20]).getAddressFromPair
      Registers.H = .ok 0x2000 ∧
    (Registers.run Registers.init [RegOp.setItem (.int Registers.H) 0x20]).getAddressFromPair
      Registers.C = .error .invalidPair :=
  have h := claimC6 (Registers.run Registers.init [RegOp.setItem (.int Registers.H) 0x20])
    (by decide)
  ⟨h.1.2.2.trans (congrArg Except.ok (by decide)),
    h.2.1 Registers.C (by decide) (by decide) (by decide)⟩

/-- Claim C9: indexed register access succeeds exactly for the seven scalar
codes (write-then-read returns the written value), raises a type error for a
non-int key and an index error for any other int code, M=6 included. -/
theorem claimC9 (r : Registers) (hk : r.keys = scalarCodes) :
    (∀ c ∈ scalarCodes, ∀ v : Int,
      ∃ r2, r.setItem (.int c) v = .ok r2 ∧ r2.getItem (.int c) = .ok v) ∧
    (r.getItem .nonInt = .error .typeError ∧
      ∀ v : Int, r.setItem .nonInt v = .error .typeError) ∧
    (∀ c : Int, c ∉ scalarCodes →
      r.getItem (.int c) = .error (.indexError c) ∧
      ∀ v : Int, r.setItem (.int c) v = .error (.indexError c)) ∧
    r.getItem (.int Registers.M) = .error (.indexError 6) := by
  refine ⟨?_, ⟨rfl, fun _ => rfl⟩, ?_, ?_⟩
  · intro c hc v
    have hc2 : c ∈ r.keys := by rw [hk]; exact hc
    refine ⟨r.dictSet c v, by simp [Registers.setItem, hc2], ?_⟩
    simp [Registers.getItem, Registers.dictSet, hc2]
  · intro c hc
    have hc2 : c ∉ r.keys := by rw [hk]; exact hc
    exact ⟨by simp [Registers.getItem, hc2], fun v => by simp [Registers.setItem, hc2]⟩
  · have h6 : (6 : Int) ∉ r.keys := by rw [hk]; decide
    simp [Registers.getItem, Registers.M, h6]

/-- Witness for C9 on the fresh register file: write-then-read at A, and the
index error at the pseudo-register code M. -/
theorem claimC9_witness :
    (∃ r2, Registers.init.setItem (.int 7) 99 = .ok r2 ∧
      r2.getItem (.int 7) = .ok 99) ∧
    Registers.init.getItem (.int Registers.M) = .error (.indexError 6) :=
  ⟨(claimC9 Registers.init rfl).1 7 (by decide) 99, (claimC9 Registers.init rfl).2.2.2⟩

/-- Claim C10: pair_from_encoding maps 0,1,2 to BC, DE, HL, the negative
selectors -1,-2,-3 to HL, DE, BC (Python sequence indexing from the end),
and any other integer selector to a plain IndexError, not InvalidPair. -/
theorem claimC10 :
    (Registers.getPairs 0 = .ok ⟨Registers.B, Registers.C⟩ ∧
      Registers.getPairs 1 = .ok ⟨Registers.D, Registers.E⟩ ∧
      Registers.getPairs 2 = .ok ⟨Registers.H, Registers.L⟩ ∧
      Registers.getPairs (-1) = .ok ⟨Registers.H, Registers.L⟩ ∧
      Registers.getPairs (-2) = .ok ⟨Registers.D, Registers.E⟩ ∧
      Registers.getPairs (-3) = .ok ⟨Registers.B, Registers.C⟩) ∧
    ∀ i : Int, 3 ≤ i ∨ i < -3 → Registers.getPairs i = .error (.indexError i) := by
  refine ⟨⟨rfl, rfl, rfl, rfl, rfl, rfl⟩, ?_⟩
  intro i hi
  have h3 : Registers.rp.length = 3 := rfl
  simp only [Registers.getPairs, Registers.pyListGet]
  split
  · omega
  · split
    · omega
    · rfl

/-- Witness for C10: selector 5 is out of range in both directions. -/
theorem claimC10_witness : Registers.getPairs 5 = .error (.indexError 5) :=
  claimC10.2 5 (by omega)

end Emu8080
